import Mathlib

/-!
Verification of the PS4 Aeolia/Baikal ICC mailbox transport and the
MN86471A/MN864729 bridge command-queue encoder.

The definitions below are a shallow embedding of the C sources:
* the ICC transport (`checksum`, `handle_message`, `_apcie_icc_cmd`,
  `apcie_icc_cmd`, `icc_ioctl`);
* the bridge command queue (`cq_init`, `cq_cmd`, the emitters, `cq_exec`).

Machine integers are modelled as `Nat` with explicit `% 2^w` reductions at
the points where the C types wrap (u8 `% 256`, u16 `% 65536`).  Memory-mapped
reads and the interrupt-driven environment are passed in explicitly
(`IccWorld`, `Delivery`).  Errno values appear literally:
EAGAIN = 11, EIO = 5, E2BIG = 7, EINTR = 4, ETIMEDOUT = 110, EFAULT = 14.
-/

/-- Protocol constants from `aeolia-baikal.h` (the header is not part of the
sources; every development below is parametric in these values, constrained
only by the relations the spec states between them). -/
structure IccConsts where
  hdrSize : Nat
  minSize : Nat
  maxSize : Nat
  minPayload : Nat
  maxPayload : Nat
  magic : Nat
  eventMagic : Nat
  eventFlag : Nat
  replyFlag : Nat
deriving DecidableEq

/-- `static u16 checksum(const void *p, int length)`: byte-wise additive
checksum accumulated in a `u16`, i.e. modulo 2^16. -/
def checksum (l : List Nat) : Nat :=
  l.foldl (fun s b => (s + b) % 65536) 0

/-- The ICC message header, `struct icc_message_hdr`. -/
structure icc_message_hdr where
  magic : Nat
  major : Nat
  minor : Nat
  unknown : Nat
  cookie : Nat
  length : Nat
  checksum : Nat
deriving DecidableEq

/-- Modelled from the spec: the byte serialization of `struct icc_message_hdr`
(the struct itself lives in `aeolia-baikal.h`, which is absent from the
sources).  Per the spec's data model the header carries an 8-bit magic, an
8-bit major, a 16-bit minor (high bits are the REPLY/EVENT flags), a 16-bit
cookie, a 16-bit total length and a 16-bit checksum; the frame dump routine
additionally shows a 16-bit `unknown` field between minor and cookie.
Multi-byte fields are serialized little-endian; the additive checksum is
order-insensitive, so nothing below depends on the endianness choice. -/
def hdrBytes (h : icc_message_hdr) : List Nat :=
  [h.magic % 256, h.major % 256,
   h.minor % 256, h.minor / 256 % 256,
   h.unknown % 256, h.unknown / 256 % 256,
   h.cookie % 256, h.cookie / 256 % 256,
   h.length % 256, h.length / 256 % 256,
   h.checksum % 256, h.checksum / 256 % 256]

lemma checksum_foldl (l : List Nat) :
    ∀ s : Nat, l.foldl (fun s b => (s + b) % 65536) (s % 65536) = (s + l.sum) % 65536 := by
  induction l with
  | nil => intro s; simp
  | cons b t ih =>
    intro s
    simp only [List.foldl_cons, List.sum_cons]
    rw [Nat.mod_add_mod, ih (s + b)]
    ring_nf

lemma checksum_eq_sum (l : List Nat) : checksum l = l.sum % 65536 := by
  have h := checksum_foldl l 0
  simpa [checksum] using h

lemma checksum_append (l₁ l₂ : List Nat) :
    checksum (l₁ ++ l₂) = (checksum l₁ + checksum l₂) % 65536 := by
  simp [checksum_eq_sum, Nat.add_mod]

lemma checksum_perm {l₁ l₂ : List Nat} (h : l₁.Perm l₂) :
    checksum l₁ = checksum l₂ := by
  simp [checksum_eq_sum, h.sum_eq]

lemma checksum_pad (l : List Nat) (n : Nat) :
    checksum (l ++ List.replicate n 0) = checksum l := by
  simp [checksum_eq_sum, List.sum_append]

/-- The per-device ICC bookkeeping, the `icc` member of `struct apcie_dev`
(only the fields the transport reads or writes).  The caller's reply buffer
is threaded through separately as an explicit `List Nat`; the saved pointer
`sc->icc.reply_buffer` is tracked by the flag `reply_buffer_set`. -/
structure IccState where
  request : icc_message_hdr
  reply : icc_message_hdr
  reply_pending : Bool
  reply_buffer_set : Bool
  reply_length : Nat
  reply_extra_checksum : Nat
deriving DecidableEq

/-- One inbound frame as seen by `handle_message`: the reply-slot ring flags
and the slot contents (header plus the payload bytes that follow it). -/
structure Delivery where
  rep_empty : Nat
  rep_full : Nat
  msg : icc_message_hdr
  payload : List Nat
deriving DecidableEq

/-- `static void handle_message(struct apcie_dev *sc)` — the interrupt-side
demultiplexer.  `buf` is the caller's reply buffer (the memory
`sc->icc.reply_buffer` points at); the returned `Bool` records whether
`wake_up(&sc->icc.wq)` was reached.  The event branch only dispatches to the
external power-button callbacks and never touches the reply bookkeeping, so
both of its outcomes leave the state unchanged. -/
def handle_message (c : IccConsts) (st : IccState) (buf : List Nat)
    (d : Delivery) : IccState × List Nat × Bool :=
  if d.rep_empty ≠ 0 ∨ d.rep_full ≠ 1 then (st, buf, false)
  else if d.msg.minor &&& c.eventFlag ≠ 0 then (st, buf, false)
  else if d.msg.minor &&& c.replyFlag ≠ 0 then
    if d.msg.magic ≠ c.magic then (st, buf, false)
    else if st.reply_pending = false then (st, buf, false)
    else if d.msg.cookie ≠ st.request.cookie then (st, buf, false)
    else if d.msg.length < c.hdrSize ∨ d.msg.length > c.maxSize then (st, buf, false)
    else
      let copy_size := min st.reply_length (d.msg.length - c.hdrSize)
      ({ st with
          reply_extra_checksum :=
            ((d.payload.take (d.msg.length - c.hdrSize)).drop copy_size).sum,
          reply_pending := false,
          reply_length := copy_size,
          reply := d.msg },
       d.payload.take copy_size ++ buf.drop copy_size,
       true)
  else (st, buf, false)

/-- Sequential composition of the interrupt handler over the frames the
remote delivers while the sender is blocked in the wait. -/
def deliverAll (c : IccConsts) : IccState → List Nat → List Delivery → IccState × List Nat
  | st, buf, [] => (st, buf)
  | st, buf, d :: ds =>
    let r := handle_message c st buf d
    deliverAll c r.1 r.2.1 ds

/-- The environment of one `_apcie_icc_cmd` call: the request-ring flags read
at entry, the frames the remote delivers during the wait, and whether a
signal interrupts the (interruptible) wait. -/
structure IccWorld where
  req_empty : Nat
  req_full : Nat
  deliveries : List Delivery
  interrupted : Bool

/-- The request header as `_apcie_icc_cmd` fills it in before checksumming:
fixed magic, caller's major/minor, incremented cookie (u16), total length
`ICC_HDR_SIZE + length` floor-clamped to `ICC_MIN_SIZE`, checksum zeroed.
The `unknown` field is never assigned and keeps its previous value. -/
def requestHeader (c : IccConsts) (st : IccState) (major minor : Nat)
    (data : List Nat) : icc_message_hdr :=
  let len0 := (c.hdrSize + data.length) % 65536
  { magic := c.magic, major := major, minor := minor,
    unknown := st.request.unknown,
    cookie := (st.request.cookie + 1) % 65536,
    length := if len0 < c.minSize then c.minSize else len0,
    checksum := 0 }

/-- `request.checksum = checksum(&request, ICC_HDR_SIZE); request.checksum +=
checksum(data, length);` — both the call results and the `+=` are u16. -/
def requestChecksum (c : IccConsts) (st : IccState) (major minor : Nat)
    (data : List Nat) : Nat :=
  (checksum (hdrBytes (requestHeader c st major minor data)) + checksum data) % 65536

/-- The request frame header as transmitted (checksum field filled in). -/
def requestFinal (c : IccConsts) (st : IccState) (major minor : Nat)
    (data : List Nat) : icc_message_hdr :=
  { requestHeader c st major minor data with
      checksum := requestChecksum c st major minor data }

/-- u16 subtraction `a -= b` on values already reduced or not: the result the
C `u16` arithmetic stores. -/
def u16sub (a b : Nat) : Nat :=
  (a % 65536 + (65536 - b % 65536)) % 65536

/-- `static int _apcie_icc_cmd(...)` — the transport proper.  Returns the C
return value together with the final bookkeeping state and the final contents
of the caller's reply buffer `buf`.  The post-wait processing follows the C
exactly: the saved buffer pointer is cleared on every path; an interrupted or
still-pending wait clears the pending flag and fails; otherwise the checksum
is re-verified by u16 subtraction (`rep_checksum -= ...` three times, with
`sc->icc.reply.checksum` zeroed first and left zeroed), then major/minor are
matched and the header-subtracted reply length returned. -/
def _apcie_icc_cmd (c : IccConsts) (st : IccState) (major minor : Nat)
    (data : List Nat) (buf : List Nat) (reply_length : Nat) (intr : Bool)
    (w : IccWorld) : Int × IccState × List Nat :=
  if data.length > c.maxPayload then (-7, st, buf)
  else
    let st1 := { st with
        request := requestFinal c st major minor data,
        reply_buffer_set := true,
        reply_length := reply_length }
    if w.req_empty ≠ 1 ∨ w.req_full ≠ 0 then (-5, st1, buf)
    else
      let st2 := { st1 with reply_pending := true }
      let dres := deliverAll c st2 buf w.deliveries
      let st3 := dres.1
      let buf3 := dres.2
      let st4 := { st3 with reply_buffer_set := false }
      if st3.reply_pending then
        (if intr && w.interrupted then -4 else -110,
         { st4 with reply_pending := false }, buf3)
      else
        let claimed := st4.reply.checksum
        let st5 := { st4 with reply := { st4.reply with checksum := 0 } }
        let diff :=
          u16sub (u16sub (u16sub claimed (checksum (hdrBytes st5.reply)))
                   (checksum (buf3.take st5.reply_length)))
            st5.reply_extra_checksum
        if diff ≠ 0 then (-5, st5, buf3)
        else if st5.reply.major ≠ major then (-5, st5, buf3)
        else if st5.reply.minor ≠ (minor ||| c.replyFlag) then (-5, st5, buf3)
        else ((st5.reply.length : Int) - (c.hdrSize : Int), st5, buf3)

/-- `int apcie_icc_cmd(...)` — the exported entry point.  The second
component of the result records whether `icc_mutex` is still held when the
function returns: `mutex_lock(&icc_mutex)` is taken on the non-bpcie path,
and the C source reaches `return -EAGAIN` on the `!icc_sc` path without an
intervening `mutex_unlock`. -/
def apcie_icc_cmd (c : IccConsts) (bpcie_initialized : Bool) (bpcieRes : Int)
    (icc_sc_ready : Bool) (st : IccState) (major minor : Nat)
    (data buf : List Nat) (reply_length : Nat) (w : IccWorld) :
    Int × Bool × IccState × List Nat :=
  if bpcie_initialized then (bpcieRes, false, st, buf)
  else if ¬icc_sc_ready then (-11, true, st, buf)
  else
    let r := _apcie_icc_cmd c st major minor data buf reply_length false w
    (r.1, false, r.2.1, r.2.2)

/-- `struct i2c_cmdqueue` as the encoder uses it: `buf` is the contents of
`req.cmdbuf` written so far (the cursor `q->p` is `buf.length` bytes past the
start of `cmdbuf`), `cmdPos` is the offset of the currently open
`struct i2c_cmd_hdr` inside `cmdbuf` (`q->cmd`, `none` when NULL), and
`reqCount` is the u8 group counter `req.count`. -/
structure CQ where
  code : Nat
  reqCount : Nat
  buf : List Nat
  cmdPos : Option Nat
deriving DecidableEq

/-- `static void cq_init(struct i2c_cmdqueue *q, u8 code)`. -/
def cq_init (code : Nat) : CQ :=
  { code := code % 256, reqCount := 0, buf := [], cmdPos := none }

/-- `static void cq_cmd(struct i2c_cmdqueue *q, u8 major, u8 minor)`.
The open group header occupies `buf[i..i+3]` as `[major, length, minor,
count]` (`struct i2c_cmd_hdr`, all fields u8).  A matching opcode bumps the
count byte in place; otherwise the open header's length byte is back-patched
to `q->p - (u8 *)q->cmd` (a u8, hence `% 256`) and a fresh header with count
1 and length 0 is appended. -/
def cq_cmd (q : CQ) (major minor : Nat) : CQ :=
  match q.cmdPos with
  | some i =>
    if q.buf.getD i 0 = major ∧ q.buf.getD (i + 2) 0 = minor then
      { q with buf := q.buf.set (i + 3) ((q.buf.getD (i + 3) 0 + 1) % 256) }
    else
      let buf1 := q.buf.set (i + 1) ((q.buf.length - i) % 256)
      { q with
          buf := buf1 ++ [major, 0, minor, 1],
          cmdPos := some buf1.length,
          reqCount := (q.reqCount + 1) % 256 }
  | none =>
    { q with
        buf := q.buf ++ [major, 0, minor, 1],
        cmdPos := some q.buf.length,
        reqCount := (q.reqCount + 1) % 256 }

/-- The `*q->p++ = ...` operand-byte pushes shared by all emitters. -/
def cq_push (q : CQ) (l : List Nat) : CQ :=
  { q with buf := q.buf ++ l }

/-- `static void cq_read(struct i2c_cmdqueue *q, u16 addr, u8 count)`
(`CMD_READ` is major 1, minor 1). -/
def cq_read (q : CQ) (addr count : Nat) : CQ :=
  cq_push (cq_cmd q 1 1) [count % 256, addr / 256 % 256, addr % 256, 0]

/-- `static void cq_writereg(struct i2c_cmdqueue *q, u16 addr, u8 data)`
(`CMD_WRITE` is major 2, minor 2). -/
def cq_writereg (q : CQ) (addr data : Nat) : CQ :=
  cq_push (cq_cmd q 2 2) [1, addr / 256 % 256, addr % 256, data % 256]

/-- `static void cq_mask(struct i2c_cmdqueue *q, u16 addr, u8 value, u8 mask)`
(`CMD_MASK` is major 2, minor 3; five operand bytes). -/
def cq_mask (q : CQ) (addr value mask : Nat) : CQ :=
  cq_push (cq_cmd q 2 3) [1, addr / 256 % 256, addr % 256, value % 256, mask % 256]

/-- `static void cq_delay(struct i2c_cmdqueue *q, u16 time)` (`CMD_DELAY` is
major 3, minor 1; the time is pushed low byte first). -/
def cq_delay (q : CQ) (time : Nat) : CQ :=
  cq_push (cq_cmd q 3 1) [0, time % 256, time / 256 % 256, 0]

/-- `static void cq_wait_set(struct i2c_cmdqueue *q, u16 addr, u8 mask)`
(`CMD_WAIT_SET` is major 3, minor 2). -/
def cq_wait_set (q : CQ) (addr mask : Nat) : CQ :=
  cq_push (cq_cmd q 3 2) [0, addr / 256 % 256, addr % 256, mask % 256]

/-- `static void cq_wait_clear(struct i2c_cmdqueue *q, u16 addr, u8 mask)`
(`CMD_WAIT_CLEAR` is major 3, minor 3). -/
def cq_wait_clear (q : CQ) (addr mask : Nat) : CQ :=
  cq_push (cq_cmd q 3 3) [0, addr / 256 % 256, addr % 256, mask % 256]

/-- The final back-patch `q->cmd->length = q->p - (u8 *)q->cmd;` performed by
`cq_exec` before transmission: the on-wire contents of `req.cmdbuf`. -/
def cq_patch_last (q : CQ) : List Nat :=
  match q.cmdPos with
  | none => q.buf
  | some i => q.buf.set (i + 1) ((q.buf.length - i) % 256)

/-- The reply fields `cq_exec` inspects: the `apcie_icc_cmd` return value and
the status bytes `reply.res1`, `reply.res2`. -/
structure CqTransport where
  res : Int
  res1 : Nat
  res2 : Nat
deriving DecidableEq

/-- `static int cq_exec(struct i2c_cmdqueue *q)`.  The `Bool` records whether
the `apcie_icc_cmd` round trip was performed.  A NULL `q->cmd` (no emitter
ran since `cq_init`) returns 0 immediately; a transport result below the
5-byte protocol minimum fails with -EIO, as do nonzero status bytes; both
failures use the same -EIO value. -/
def cq_exec (q : CQ) (t : CqTransport) : Int × Bool :=
  match q.cmdPos with
  | none => (0, false)
  | some _ =>
    if t.res < 5 then (-5, true)
    else if t.res1 ≠ 0 ∨ t.res2 ≠ 0 then (-5, true)
    else (t.res, true)

/-- The emitter calls a batch may issue (the `#if 0` bulk-write emitter is
compiled out in the source and is not part of the op language). -/
inductive CqOp where
  | read (addr count : Nat)
  | writereg (addr data : Nat)
  | mask (addr value m : Nat)
  | delay (time : Nat)
  | wait_set (addr m : Nat)
  | wait_clear (addr m : Nat)
deriving DecidableEq

/-- The (major, minor) opcode pair each emitter passes to `cq_cmd`. -/
def opCode : CqOp → Nat × Nat
  | .read _ _ => (1, 1)
  | .writereg _ _ => (2, 2)
  | .mask _ _ _ => (2, 3)
  | .delay _ => (3, 1)
  | .wait_set _ _ => (3, 2)
  | .wait_clear _ _ => (3, 3)

/-- The operand bytes each emitter pushes after its `cq_cmd` call. -/
def opBytes : CqOp → List Nat
  | .read addr count => [count % 256, addr / 256 % 256, addr % 256, 0]
  | .writereg addr data => [1, addr / 256 % 256, addr % 256, data % 256]
  | .mask addr value m => [1, addr / 256 % 256, addr % 256, value % 256, m % 256]
  | .delay time => [0, time % 256, time / 256 % 256, 0]
  | .wait_set addr m => [0, addr / 256 % 256, addr % 256, m % 256]
  | .wait_clear addr m => [0, addr / 256 % 256, addr % 256, m % 256]

/-- Dispatch one emitter call on the queue. -/
def applyOp (q : CQ) : CqOp → CQ
  | .read addr count => cq_read q addr count
  | .writereg addr data => cq_writereg q addr data
  | .mask addr value m => cq_mask q addr value m
  | .delay time => cq_delay q time
  | .wait_set addr m => cq_wait_set q addr m
  | .wait_clear addr m => cq_wait_clear q addr m

/-- Run a whole sequence of emitter calls. -/
def runOps (q : CQ) (ops : List CqOp) : CQ :=
  ops.foldl applyOp q

/-- One coalesced command group: an opcode pair, how many operations were
merged into it, and the concatenated operand bytes of those operations. -/
structure CmdGroup where
  major : Nat
  minor : Nat
  count : Nat
  operands : List Nat
deriving DecidableEq

/-- Run-length grouping of the operations from a given open group onward:
an operation whose opcode matches the open group is merged into it, any
other operation closes it and opens a fresh group of count 1. -/
def rleFrom (g : CmdGroup) : List CqOp → List CmdGroup
  | [] => [g]
  | op :: rest =>
    if (opCode op).1 = g.major ∧ (opCode op).2 = g.minor then
      rleFrom { g with count := g.count + 1, operands := g.operands ++ opBytes op } rest
    else
      g :: rleFrom ⟨(opCode op).1, (opCode op).2, 1, opBytes op⟩ rest

/-- Run-length encoding of an operation sequence into command groups. -/
def rle : List CqOp → List CmdGroup
  | [] => []
  | op :: rest => rleFrom ⟨(opCode op).1, (opCode op).2, 1, opBytes op⟩ rest

/-- The bytes a closed group occupies in `cmdbuf`: the four u8 header fields
`[major, length, minor, count]` — length and count wrap as the u8 stores
do — followed by the operand bytes. -/
def renderGroup (g : CmdGroup) : List Nat :=
  [g.major, (4 + g.operands.length) % 256, g.minor, g.count % 256] ++ g.operands

/-- The whole `cmdbuf` contents for a list of closed groups. -/
def renderGroups (gs : List CmdGroup) : List Nat :=
  (gs.map renderGroup).flatten

/-- The group serialization the claim describes: the repeat count equals the
run length and the back-patched length covers all appended operand bytes,
with no 8-bit truncation. -/
def renderGroupSpec (g : CmdGroup) : List Nat :=
  [g.major, 4 + g.operands.length, g.minor, g.count] ++ g.operands

/-- Claim-side serialization of a group list. -/
def renderGroupsSpec (gs : List CmdGroup) : List Nat :=
  (gs.map renderGroupSpec).flatten

/-- The queue state corresponding to closed groups plus an open group: the
abstract state is the reversed group list, whose head (if any) is the open
group; in the buffer the open group's length byte is still 0 and its count
byte holds the running count modulo 256. -/
def concreteCQ (c0 : Nat) : List CmdGroup → CQ
  | [] => { code := c0, reqCount := 0, buf := [], cmdPos := none }
  | g :: rest =>
    { code := c0,
      reqCount := (rest.length + 1) % 256,
      buf := renderGroups rest.reverse ++ [g.major, 0, g.minor, g.count % 256] ++ g.operands,
      cmdPos := some (renderGroups rest.reverse).length }

/-- Abstract effect of one `cq_cmd`-plus-push on the reversed group list. -/
def absStep (a : List CmdGroup) (major minor : Nat) (extra : List Nat) : List CmdGroup :=
  match a with
  | g :: rest =>
    if g.major = major ∧ g.minor = minor then
      { g with count := g.count + 1, operands := g.operands ++ extra } :: rest
    else
      ⟨major, minor, 1, extra⟩ :: g :: rest
  | [] => [⟨major, minor, 1, extra⟩]

/-- Abstract effect of one emitter call. -/
def absApply (a : List CmdGroup) (op : CqOp) : List CmdGroup :=
  absStep a (opCode op).1 (opCode op).2 (opBytes op)

lemma getD_append_add (l m : List Nat) (k : Nat) :
    (l ++ m).getD (l.length + k) 0 = m.getD k 0 := by
  rw [List.getD_append_right l m 0 (l.length + k) (Nat.le_add_right _ _)]
  simp

lemma set_append_add (l m : List Nat) (k x : Nat) :
    (l ++ m).set (l.length + k) x = l ++ m.set k x := by
  rw [List.set_append]
  simp

lemma renderGroups_append (xs ys : List CmdGroup) :
    renderGroups (xs ++ ys) = renderGroups xs ++ renderGroups ys := by
  simp [renderGroups]

lemma renderGroups_snoc (xs : List CmdGroup) (g : CmdGroup) :
    renderGroups (xs ++ [g]) = renderGroups xs ++ renderGroup g := by
  simp [renderGroups_append, renderGroups]


lemma getD_append_self (l m : List Nat) : (l ++ m).getD l.length 0 = m.getD 0 0 := by
  simpa using getD_append_add l m 0

lemma cq_step_cons_match (c0 : Nat) (g : CmdGroup) (rest : List CmdGroup) (extra : List Nat) :
    cq_push (cq_cmd (concreteCQ c0 (g :: rest)) g.major g.minor) extra =
      concreteCQ c0 ({ g with count := g.count + 1, operands := g.operands ++ extra } :: rest) := by
  simp only [concreteCQ, cq_cmd, cq_push, List.append_assoc, List.cons_append, List.nil_append,
    getD_append_self, getD_append_add, set_append_add]
  simp [Nat.mod_add_mod, List.set]

lemma cq_step_cons_diff (c0 : Nat) (g : CmdGroup) (rest : List CmdGroup)
    (major minor : Nat) (extra : List Nat) (h : ¬(g.major = major ∧ g.minor = minor)) :
    cq_push (cq_cmd (concreteCQ c0 (g :: rest)) major minor) extra =
      concreteCQ c0 (⟨major, minor, 1, extra⟩ :: g :: rest) := by
  simp only [concreteCQ, cq_cmd, cq_push, List.append_assoc, List.cons_append, List.nil_append,
    getD_append_self, getD_append_add, set_append_add]
  rw [if_neg (by simpa using h)]
  have hrev : renderGroups ((g :: rest).reverse) = renderGroups rest.reverse ++ renderGroup g := by
    rw [List.reverse_cons, renderGroups_snoc]
  simp [hrev, renderGroup, List.set, Nat.mod_add_mod, Nat.add_assoc]
  rw [renderGroups_snoc]
  constructor
  · simp [renderGroup, List.append_assoc, Nat.add_comm]
  · simp [renderGroup, List.length_append]

lemma cq_step_nil (c0 : Nat) (major minor : Nat) (extra : List Nat) :
    cq_push (cq_cmd (concreteCQ c0 []) major minor) extra =
      concreteCQ c0 [⟨major, minor, 1, extra⟩] := by
  simp [concreteCQ, cq_cmd, cq_push, renderGroups]

lemma cq_step (c0 : Nat) (a : List CmdGroup) (major minor : Nat) (extra : List Nat) :
    cq_push (cq_cmd (concreteCQ c0 a) major minor) extra =
      concreteCQ c0 (absStep a major minor extra) := by
  cases a with
  | nil => simpa [absStep] using cq_step_nil c0 major minor extra
  | cons g rest =>
    by_cases h : g.major = major ∧ g.minor = minor
    · obtain ⟨h1, h2⟩ := h
      subst h1; subst h2
      simpa [absStep] using cq_step_cons_match c0 g rest extra
    · simpa [absStep, if_neg h] using cq_step_cons_diff c0 g rest major minor extra h

lemma applyOp_step (c0 : Nat) (a : List CmdGroup) (op : CqOp) :
    applyOp (concreteCQ c0 a) op = concreteCQ c0 (absApply a op) := by
  cases op with
  | read addr count =>
    simpa [applyOp, cq_read, absApply, opCode, opBytes] using
      cq_step c0 a 1 1 [count % 256, addr / 256 % 256, addr % 256, 0]
  | writereg addr data =>
    simpa [applyOp, cq_writereg, absApply, opCode, opBytes] using
      cq_step c0 a 2 2 [1, addr / 256 % 256, addr % 256, data % 256]
  | mask addr value m =>
    simpa [applyOp, cq_mask, absApply, opCode, opBytes] using
      cq_step c0 a 2 3 [1, addr / 256 % 256, addr % 256, value % 256, m % 256]
  | delay time =>
    simpa [applyOp, cq_delay, absApply, opCode, opBytes] using
      cq_step c0 a 3 1 [0, time % 256, time / 256 % 256, 0]
  | wait_set addr m =>
    simpa [applyOp, cq_wait_set, absApply, opCode, opBytes] using
      cq_step c0 a 3 2 [0, addr / 256 % 256, addr % 256, m % 256]
  | wait_clear addr m =>
    simpa [applyOp, cq_wait_clear, absApply, opCode, opBytes] using
      cq_step c0 a 3 3 [0, addr / 256 % 256, addr % 256, m % 256]

lemma runOps_sim (c0 : Nat) (ops : List CqOp) :
    ∀ a : List CmdGroup, runOps (concreteCQ c0 a) ops = concreteCQ c0 (ops.foldl absApply a) := by
  induction ops with
  | nil => intro a; simp [runOps]
  | cons op rest ih =>
    intro a
    have h1 : runOps (concreteCQ c0 a) (op :: rest) = runOps (applyOp (concreteCQ c0 a) op) rest := by
      simp [runOps]
    rw [h1, applyOp_step, ih]
    simp

lemma foldl_absApply_rleFrom (ops : List CqOp) :
    ∀ (g : CmdGroup) (acc : List CmdGroup),
      ops.foldl absApply (g :: acc) = (rleFrom g ops).reverse ++ acc := by
  induction ops with
  | nil => intro g acc; simp [rleFrom]
  | cons op rest ih =>
    intro g acc
    by_cases h : (opCode op).1 = g.major ∧ (opCode op).2 = g.minor
    · have habs : absApply (g :: acc) op =
          { g with count := g.count + 1, operands := g.operands ++ opBytes op } :: acc := by
        simp [absApply, absStep, h.1.symm, h.2.symm]
      simp only [List.foldl_cons, habs, ih, rleFrom, if_pos h]
    · have habs : absApply (g :: acc) op =
          ⟨(opCode op).1, (opCode op).2, 1, opBytes op⟩ :: g :: acc := by
        have hne : ¬(g.major = (opCode op).1 ∧ g.minor = (opCode op).2) := by
          intro hc; exact h ⟨hc.1.symm, hc.2.symm⟩
        simp [absApply, absStep, if_neg hne]
      simp only [List.foldl_cons, habs, ih, rleFrom, if_neg h]
      simp [List.append_assoc]

lemma rleFrom_ne_nil (ops : List CqOp) : ∀ g : CmdGroup, rleFrom g ops ≠ [] := by
  induction ops with
  | nil => intro g; simp [rleFrom]
  | cons op rest ih =>
    intro g
    by_cases h : (opCode op).1 = g.major ∧ (opCode op).2 = g.minor
    · simpa [rleFrom, if_pos h] using ih _
    · simp [rleFrom, if_neg h]

lemma cq_patch_last_concrete (c0 : Nat) (g : CmdGroup) (rest : List CmdGroup) :
    cq_patch_last (concreteCQ c0 (g :: rest)) = renderGroups ((g :: rest).reverse) := by
  simp only [concreteCQ, cq_patch_last, List.append_assoc, List.cons_append, List.nil_append,
    set_append_add]
  have hlen : (renderGroups rest.reverse ++
      g.major :: 0 :: g.minor :: g.count % 256 :: g.operands).length
      = (renderGroups rest.reverse).length + (4 + g.operands.length) := by
    simp [List.length_append]
    ring
  rw [hlen, Nat.add_sub_cancel_left, List.reverse_cons, renderGroups_snoc]
  simp [List.set, renderGroup, List.append_assoc, Nat.add_comm]

lemma cq_coalesce_general (code : Nat) (ops : List CqOp) :
    cq_patch_last (runOps (cq_init code) ops) = renderGroups (rle ops) := by
  cases ops with
  | nil => simp [runOps, cq_init, cq_patch_last, rle, renderGroups]
  | cons op rest =>
    have hinit : cq_init code = concreteCQ (code % 256) [] := by
      simp [cq_init, concreteCQ]
    rw [hinit, runOps_sim]
    have h1 : (op :: rest).foldl absApply [] =
        (rleFrom ⟨(opCode op).1, (opCode op).2, 1, opBytes op⟩ rest).reverse := by
      have : absApply [] op = [⟨(opCode op).1, (opCode op).2, 1, opBytes op⟩] := by
        simp [absApply, absStep]
      simpa [this] using
        foldl_absApply_rleFrom rest ⟨(opCode op).1, (opCode op).2, 1, opBytes op⟩ []
    rw [h1]
    obtain ⟨g', rest', hgr⟩ :
        ∃ g' rest', (rleFrom ⟨(opCode op).1, (opCode op).2, 1, opBytes op⟩ rest).reverse
          = g' :: rest' := by
      rcases hx : (rleFrom ⟨(opCode op).1, (opCode op).2, 1, opBytes op⟩ rest).reverse with _ | ⟨g', rest'⟩
      · exact absurd (by simpa using congrArg List.reverse hx) (rleFrom_ne_nil rest _)
      · exact ⟨g', rest', rfl⟩
    rw [hgr, cq_patch_last_concrete]
    rw [← hgr, List.reverse_reverse]
    simp [rle]

/-- C7 (amended): for every sequence of command-queue emitter calls,
consecutive operations with the same (major, minor) opcode pair are coalesced
into a single command group and an operation with a different opcode closes
the open group and opens a new one with repeat count 1 — but the group
header's repeat-count and back-patched length are 8-bit stores, so the
serialized fields carry those values modulo 256 rather than exactly.  In
particular three consecutive `cq_writereg` calls produce exactly one group
with repeat count 3, and `cq_writereg`, `cq_read`, `cq_writereg` produce
exactly three groups. -/
theorem cq_coalescing (code : Nat) (ops : List CqOp) :
    cq_patch_last (runOps (cq_init code) ops) = renderGroups (rle ops) ∧
    (∀ A B C d1 d2 d3 : Nat,
      rle [CqOp.writereg A d1, CqOp.writereg B d2, CqOp.writereg C d3] =
        [⟨2, 2, 3, opBytes (CqOp.writereg A d1) ++ opBytes (CqOp.writereg B d2) ++
            opBytes (CqOp.writereg C d3)⟩]) ∧
    (∀ A B C d1 n d3 : Nat,
      (rle [CqOp.writereg A d1, CqOp.read B n, CqOp.writereg C d3]).length = 3) := by
  refine ⟨cq_coalesce_general code ops, ?_, ?_⟩
  · intro A B C d1 d2 d3
    simp [rle, rleFrom, opCode, opBytes, List.append_assoc]
  · intro A B C d1 n d3
    simp [rle, rleFrom, opCode, opBytes]

set_option maxRecDepth 4000 in
/-- C7 (counterexample to the claim as stated): a run of 63 consecutive
`cq_writereg` calls appends 252 operand bytes, so the closed group's
back-patched length would have to be 256; the length field is a u8 and wraps
to 0, so the serialized buffer differs from the claim's unwrapped rendering
(`renderGroupsSpec`). -/
theorem cq_backpatch_wraps_at_63 :
    cq_patch_last (runOps (cq_init 4) (List.replicate 63 (CqOp.writereg 0 0))) ≠
      renderGroupsSpec (rle (List.replicate 63 (CqOp.writereg 0 0))) := by
  decide

/-- C8 (amended): with a group open, command-queue execute fails exactly when
the transport call fails or returns fewer than the 5-byte protocol minimum,
or when the reply status bytes `res1`/`res2` are nonzero — but both failure
classes surface as the same -EIO value (-5); the code does not distinguish a
device rejection from a transport failure.  Otherwise it returns the
validated transport length; the round trip is always performed. -/
theorem cq_exec_error_classes (q : CQ) (t : CqTransport) (h : q.cmdPos ≠ none) :
    ((cq_exec q t).1 = -5 ↔ (t.res < 5 ∨ t.res1 ≠ 0 ∨ t.res2 ≠ 0)) ∧
    (¬(t.res < 5 ∨ t.res1 ≠ 0 ∨ t.res2 ≠ 0) → (cq_exec q t).1 = t.res) ∧
    (cq_exec q t).2 = true := by
  rcases hq : q.cmdPos with _ | i
  · exact absurd hq h
  · simp only [cq_exec, hq]
    by_cases h5 : t.res < 5
    · simp [h5]
    · by_cases h1 : t.res1 = 0
      · by_cases h2 : t.res2 = 0
        · simp [h5, h1, h2]
          omega
        · simp [h5, h1, h2]
      · simp [h5, h1]

/-- Witness for C8's amended theorem at a concrete queue and transport. -/
theorem cq_exec_error_classes_witness :
    (cq_exec (cq_writereg (cq_init 4) 0x7005 1) ⟨9, 0, 0⟩).2 = true :=
  (cq_exec_error_classes (cq_writereg (cq_init 4) 0x7005 1) ⟨9, 0, 0⟩ (by decide)).2.2

/-- C8 (counterexample to the claim as stated): a failed transport round trip
and a device rejection (nonzero status byte) return the same error value -5
(-EIO), so `DeviceRejected` is not a distinct error from `IoFailure`. -/
theorem cq_exec_rejection_indistinct :
    (cq_exec (cq_writereg (cq_init 4) 0x7005 1) ⟨-110, 0, 0⟩).1 = -5 ∧
    (cq_exec (cq_writereg (cq_init 4) 0x7005 1) ⟨9, 1, 0⟩).1 = -5 := by
  decide

/-- C10: executing a batch in which no emitter ran since `cq_init` (so no
command group is open, `q->cmd == NULL`) returns 0 immediately and performs
no mailbox transport round trip, whatever the transport would have done. -/
theorem cq_exec_empty (code : Nat) (t : CqTransport) :
    cq_exec (cq_init code) t = (0, false) := rfl

lemma handle_message_drop (c : IccConsts) (st : IccState) (buf : List Nat) (d : Delivery)
    (hbad : d.msg.cookie ≠ st.request.cookie) :
    handle_message c st buf d = (st, buf, false) := by
  unfold handle_message
  split_ifs <;> rfl

lemma handle_message_success (c : IccConsts) (st : IccState) (buf : List Nat) (d : Delivery)
    (he : d.rep_empty = 0) (hf : d.rep_full = 1)
    (hev : d.msg.minor &&& c.eventFlag = 0)
    (hrep : d.msg.minor &&& c.replyFlag ≠ 0)
    (hmag : d.msg.magic = c.magic)
    (hp : st.reply_pending = true)
    (hck : d.msg.cookie = st.request.cookie)
    (hlen1 : c.hdrSize ≤ d.msg.length) (hlen2 : d.msg.length ≤ c.maxSize) :
    handle_message c st buf d =
      ({ st with
          reply_extra_checksum := ((d.payload.take (d.msg.length - c.hdrSize)).drop
            (min st.reply_length (d.msg.length - c.hdrSize))).sum,
          reply_pending := false,
          reply_length := min st.reply_length (d.msg.length - c.hdrSize),
          reply := d.msg },
       d.payload.take (min st.reply_length (d.msg.length - c.hdrSize)) ++
         buf.drop (min st.reply_length (d.msg.length - c.hdrSize)),
       true) := by
  have h7 : ¬(d.msg.length < c.hdrSize ∨ d.msg.length > c.maxSize) := by omega
  unfold handle_message
  simp [he, hf, hev, hrep, hmag, hp, hck, h7]

/-- Concrete protocol constants used by the evaluation theorems and
witnesses: header 12 bytes, minimum frame 0x20, maximum frame 0x7f0,
payload bounds derived from those, reply/event flags in the high bits of
`minor` as the spec describes. -/
def iccC : IccConsts :=
  { hdrSize := 12, minSize := 32, maxSize := 2032, minPayload := 20,
    maxPayload := 2020, magic := 66, eventMagic := 36,
    eventFlag := 32768, replyFlag := 16384 }

/-- An all-zero header value. -/
def iccHdr0 : icc_message_hdr :=
  { magic := 0, major := 0, minor := 0, unknown := 0, cookie := 0,
    length := 0, checksum := 0 }

/-- Freshly initialized mailbox bookkeeping. -/
def iccSt0 : IccState :=
  { request := iccHdr0, reply := iccHdr0, reply_pending := false,
    reply_buffer_set := false, reply_length := 0, reply_extra_checksum := 0 }

/-- A quiet environment: request ring idle, nothing delivered, no signal. -/
def iccWorld0 : IccWorld :=
  { req_empty := 1, req_full := 0, deliveries := [], interrupted := false }

/-- C1: evaluating `apcie_icc_cmd` at the failing input — `bpcie_initialized`
false and `icc_sc` still NULL — returns -EAGAIN with `icc_mutex` still held
(the second component of the result tracks whether the mutex is held at
return).  The C source takes `mutex_lock(&icc_mutex)` and then reaches
`return -EAGAIN` on the `!icc_sc` path without an intervening
`mutex_unlock`, so the mutex is not released on every return path. -/
theorem apcie_icc_cmd_not_ready_mutex_leak :
    (apcie_icc_cmd iccC false 0 false iccSt0 2 6 [] [] 0 iccWorld0).1 = -11 ∧
    (apcie_icc_cmd iccC false 0 false iccSt0 2 6 [] [] 0 iccWorld0).2.1 = true := by
  constructor <;> rfl

/-- C2: an inbound reply frame whose cookie differs from the outstanding
request's cookie is dropped with the state, the caller's buffer and the
wake flag all unchanged; a subsequent frame carrying the correct cookie
(and passing the other frame checks) still clears the pending flag and
wakes the waiter. -/
theorem handle_message_cookie_mismatch
    (c : IccConsts) (st : IccState) (buf : List Nat) (d d2 : Delivery)
    (hbad : d.msg.cookie ≠ st.request.cookie)
    (hp : st.reply_pending = true)
    (he2 : d2.rep_empty = 0) (hf2 : d2.rep_full = 1)
    (hev2 : d2.msg.minor &&& c.eventFlag = 0)
    (hrep2 : d2.msg.minor &&& c.replyFlag ≠ 0)
    (hmag2 : d2.msg.magic = c.magic)
    (hck2 : d2.msg.cookie = st.request.cookie)
    (hlen1 : c.hdrSize ≤ d2.msg.length) (hlen2 : d2.msg.length ≤ c.maxSize) :
    handle_message c st buf d = (st, buf, false) ∧
    (handle_message c (handle_message c st buf d).1
        (handle_message c st buf d).2.1 d2).1.reply_pending = false ∧
    (handle_message c (handle_message c st buf d).1
        (handle_message c st buf d).2.1 d2).2.2 = true := by
  have h1 := handle_message_drop c st buf d hbad
  refine ⟨h1, ?_, ?_⟩ <;>
    rw [h1, handle_message_success c st buf d2 he2 hf2 hev2 hrep2 hmag2 hp hck2 hlen1 hlen2]

/-- The request header saved for an outstanding request with cookie 7. -/
def iccHdrCookie7 : icc_message_hdr :=
  { iccHdr0 with cookie := 7 }

/-- A pending state awaiting the reply to cookie 7, for the C2 witness. -/
def iccStPending : IccState :=
  { iccSt0 with
      reply_pending := true, reply_buffer_set := true,
      reply_length := 3, request := iccHdrCookie7 }

/-- A reply frame with the wrong cookie (9 instead of 7). -/
def iccBadCookieReply : Delivery :=
  { rep_empty := 0, rep_full := 1,
    msg := { magic := 66, major := 2, minor := 16390, unknown := 0,
             cookie := 9, length := 14, checksum := 0 },
    payload := [5, 6] }

/-- The same reply frame carrying the awaited cookie 7. -/
def iccGoodCookieReply : Delivery :=
  { rep_empty := 0, rep_full := 1,
    msg := { magic := 66, major := 2, minor := 16390, unknown := 0,
             cookie := 7, length := 14, checksum := 0 },
    payload := [5, 6] }

/-- Witness for C2 at a concrete pending state and frame pair. -/
theorem handle_message_cookie_mismatch_witness :
    (handle_message iccC
        (handle_message iccC iccStPending [0, 0, 0] iccBadCookieReply).1
        (handle_message iccC iccStPending [0, 0, 0] iccBadCookieReply).2.1
        iccGoodCookieReply).2.2 = true :=
  (handle_message_cookie_mismatch iccC iccStPending [0, 0, 0]
    iccBadCookieReply iccGoodCookieReply (by decide) (by decide) (by decide)
    (by decide) (by decide) (by decide) (by decide) (by decide) (by decide)
    (by decide)).2.2

/-- C3: the transmitted frame checksum is the sum of all header and payload
bytes modulo 2^16 with the checksum field treated as zero (the first
conjunct includes an arbitrary amount of zero padding of the payload, so
computing the checksum over the unpadded payload, as the code does, equals
computing it over the padded frame); the checksum function is the byte sum
modulo 2^16, hence order-insensitive, additive over concatenation, and
invariant under zero padding. -/
theorem checksum_spec (c : IccConsts) (st : IccState) (major minor : Nat)
    (data : List Nat) (n : Nat) :
    (requestFinal c st major minor data).checksum =
      (hdrBytes (requestHeader c st major minor data) ++
        (data ++ List.replicate n 0)).sum % 65536 ∧
    (∀ l : List Nat, checksum l = l.sum % 65536) ∧
    (∀ l₁ l₂ : List Nat, l₁.Perm l₂ → checksum l₁ = checksum l₂) ∧
    (∀ l₁ l₂ : List Nat, checksum (l₁ ++ l₂) = (checksum l₁ + checksum l₂) % 65536) ∧
    (∀ l : List Nat, ∀ m : Nat, checksum (l ++ List.replicate m 0) = checksum l) := by
  refine ⟨?_, checksum_eq_sum, fun _ _ h => checksum_perm h, checksum_append, checksum_pad⟩
  simp [requestFinal, requestChecksum, checksum_eq_sum, List.sum_append,
    Nat.add_mod]

/-- Witness for C3: order-insensitivity applied to a concrete permutation. -/
theorem checksum_spec_witness : checksum [1, 2, 3] = checksum [3, 1, 2] :=
  (checksum_spec iccC iccSt0 0 0 [] 0).2.2.1 [1, 2, 3] [3, 1, 2] (by decide)

lemma icc_cmd_delivered_eval (c : IccConsts) (st : IccState) (major minor : Nat)
    (data buf : List Nat) (reply_length : Nat) (intr : Bool) (w : IccWorld) (d : Delivery)
    (hd : data.length ≤ c.maxPayload)
    (hre : w.req_empty = 1) (hrf : w.req_full = 0)
    (hw : w.deliveries = [d])
    (he : d.rep_empty = 0) (hf : d.rep_full = 1)
    (hev : d.msg.minor &&& c.eventFlag = 0)
    (hrep : d.msg.minor &&& c.replyFlag ≠ 0)
    (hmag : d.msg.magic = c.magic)
    (hck : d.msg.cookie = (st.request.cookie + 1) % 65536)
    (hlen1 : c.hdrSize ≤ d.msg.length) (hlen2 : d.msg.length ≤ c.maxSize)
    (hplen : d.payload.length = d.msg.length - c.hdrSize) :
    _apcie_icc_cmd c st major minor data buf reply_length intr w =
      (let copy := min reply_length (d.msg.length - c.hdrSize)
       let st5 : IccState :=
         { request := requestFinal c st major minor data,
           reply := { d.msg with checksum := 0 },
           reply_pending := false, reply_buffer_set := false,
           reply_length := copy,
           reply_extra_checksum := (d.payload.drop copy).sum }
       let bufH := d.payload.take copy ++ buf.drop copy
       let diff := u16sub (u16sub (u16sub d.msg.checksum
           (checksum (hdrBytes ({ d.msg with checksum := 0 }))))
           (checksum (d.payload.take copy)))
           ((d.payload.drop copy).sum)
       if diff ≠ 0 then (-5, st5, bufH)
       else if d.msg.major ≠ major then (-5, st5, bufH)
       else if d.msg.minor ≠ (minor ||| c.replyFlag) then (-5, st5, bufH)
       else ((d.msg.length : Int) - (c.hdrSize : Int), st5, bufH)) := by
  unfold _apcie_icc_cmd
  rw [if_neg (by omega : ¬ data.length > c.maxPayload)]
  rw [if_neg (by simp [hre, hrf])]
  simp only [hw, deliverAll]
  rw [handle_message_success c
    { request := requestFinal c st major minor data, reply := st.reply,
      reply_pending := true, reply_buffer_set := true,
      reply_length := reply_length,
      reply_extra_checksum := st.reply_extra_checksum }
    buf d he hf hev hrep hmag rfl
    (by rw [hck]; simp [requestFinal, requestChecksum, requestHeader]) hlen1 hlen2]
  have htakefull : List.take (d.msg.length - c.hdrSize) d.payload = d.payload := by
    rw [← hplen]; simp
  have htl : (List.take (reply_length ⊓ (d.msg.length - c.hdrSize)) d.payload ++
      List.drop (reply_length ⊓ (d.msg.length - c.hdrSize)) buf).take
        (reply_length ⊓ (d.msg.length - c.hdrSize)) =
      List.take (reply_length ⊓ (d.msg.length - c.hdrSize)) d.payload :=
    List.take_left' (by rw [List.length_take]; omega)
  simp only [htakefull]
  simp [htl]

lemma u16sub_chain_eq_zero (a h b e : Nat) :
    u16sub (u16sub (u16sub a h) b) e = 0 ↔ a % 65536 = (h + b + e) % 65536 := by
  unfold u16sub
  omega

/-- A reply frame that the interrupt handler accepts for the request the
current call sends (correct ring state, reply-flagged minor, magic, the
incremented cookie, in-bounds length, full payload present) and that then
passes the sender's checksum and major/minor verification. -/
def GoodReply (c : IccConsts) (st : IccState) (major minor : Nat) (d : Delivery) : Prop :=
  d.rep_empty = 0 ∧ d.rep_full = 1 ∧
  d.msg.minor &&& c.eventFlag = 0 ∧ d.msg.minor &&& c.replyFlag ≠ 0 ∧
  d.msg.magic = c.magic ∧ d.msg.cookie = (st.request.cookie + 1) % 65536 ∧
  c.hdrSize ≤ d.msg.length ∧ d.msg.length ≤ c.maxSize ∧
  d.payload.length = d.msg.length - c.hdrSize ∧
  d.msg.major = major ∧ d.msg.minor = minor ||| c.replyFlag ∧
  d.msg.checksum % 65536 =
    (checksum (hdrBytes ({ d.msg with checksum := 0 })) + d.payload.sum) % 65536

lemma icc_cmd_success (c : IccConsts) (st : IccState) (major minor : Nat)
    (data buf : List Nat) (reply_length : Nat) (intr : Bool) (w : IccWorld) (d : Delivery)
    (hd : data.length ≤ c.maxPayload)
    (hre : w.req_empty = 1) (hrf : w.req_full = 0)
    (hw : w.deliveries = [d])
    (hg : GoodReply c st major minor d) :
    (_apcie_icc_cmd c st major minor data buf reply_length intr w).1 =
      (d.msg.length : Int) - (c.hdrSize : Int) ∧
    (_apcie_icc_cmd c st major minor data buf reply_length intr w).2.2 =
      d.payload.take (min reply_length (d.msg.length - c.hdrSize)) ++
        buf.drop (min reply_length (d.msg.length - c.hdrSize)) := by
  obtain ⟨he, hf, hev, hrep, hmag, hck, hlen1, hlen2, hplen, hmaj, hmin, hcksum⟩ := hg
  rw [icc_cmd_delivered_eval c st major minor data buf reply_length intr w d
    hd hre hrf hw he hf hev hrep hmag hck hlen1 hlen2 hplen]
  have hmodeq : (checksum (hdrBytes ({ d.msg with checksum := 0 })) +
      checksum (d.payload.take (min reply_length (d.msg.length - c.hdrSize))) +
      (d.payload.drop (min reply_length (d.msg.length - c.hdrSize))).sum) % 65536 =
      (checksum (hdrBytes ({ d.msg with checksum := 0 })) + d.payload.sum) % 65536 := by
    rw [checksum_eq_sum (d.payload.take (min reply_length (d.msg.length - c.hdrSize)))]
    conv_rhs => rw [← List.sum_take_add_sum_drop d.payload
      (min reply_length (d.msg.length - c.hdrSize))]
    omega
  have hdiff : u16sub (u16sub (u16sub d.msg.checksum
      (checksum (hdrBytes ({ d.msg with checksum := 0 }))))
      (checksum (d.payload.take (min reply_length (d.msg.length - c.hdrSize)))))
      ((d.payload.drop (min reply_length (d.msg.length - c.hdrSize))).sum) = 0 := by
    rw [u16sub_chain_eq_zero]
    rw [hcksum, ← hmodeq]
  simp only [hdiff]
  simp [hmaj, hmin]

lemma icc_cmd_no_reply_eval (c : IccConsts) (st : IccState) (major minor : Nat)
    (data buf : List Nat) (reply_length : Nat) (intr : Bool) (w : IccWorld)
    (hd : data.length ≤ c.maxPayload)
    (hre : w.req_empty = 1) (hrf : w.req_full = 0)
    (hw : w.deliveries = []) :
    _apcie_icc_cmd c st major minor data buf reply_length intr w =
      ((if intr && w.interrupted then -4 else -110 : Int),
       { request := requestFinal c st major minor data, reply := st.reply,
         reply_pending := false, reply_buffer_set := false,
         reply_length := reply_length,
         reply_extra_checksum := st.reply_extra_checksum },
       buf) := by
  unfold _apcie_icc_cmd
  rw [if_neg (by omega : ¬ data.length > c.maxPayload)]
  rw [if_neg (by simp [hre, hrf])]
  simp only [hw, deliverAll]
  simp

/-- C4: a `send_request` answered by a frame the handler accepts and the
sender's verification passes (correct checksum, cookie, major/minor) returns
the reply's length minus the header size, and the caller's buffer holds
exactly `min(reply_capacity, actual payload length)` bytes of the reply
payload (the rest of the buffer is untouched). -/
theorem icc_cmd_roundtrip (c : IccConsts) (st : IccState) (major minor : Nat)
    (data buf : List Nat) (reply_length : Nat) (intr : Bool) (w : IccWorld) (d : Delivery)
    (hd : data.length ≤ c.maxPayload)
    (hre : w.req_empty = 1) (hrf : w.req_full = 0)
    (hw : w.deliveries = [d])
    (hg : GoodReply c st major minor d) :
    (_apcie_icc_cmd c st major minor data buf reply_length intr w).1 =
      (d.msg.length : Int) - (c.hdrSize : Int) ∧
    (_apcie_icc_cmd c st major minor data buf reply_length intr w).2.2 =
      d.payload.take (min reply_length (d.msg.length - c.hdrSize)) ++
        buf.drop (min reply_length (d.msg.length - c.hdrSize)) :=
  icc_cmd_success c st major minor data buf reply_length intr w d hd hre hrf hw hg

/-- C5: with a frame the interrupt handler accepted, the call succeeds only
if the checksum recomputed over the received header (checksum field zeroed)
plus the payload bytes copied into the caller's buffer plus the accumulated
sum of the payload bytes beyond the caller's capacity matches the frame's
claimed checksum modulo 2^16; any mismatch fails with -EIO. -/
theorem icc_cmd_checksum_verification (c : IccConsts) (st : IccState)
    (major minor : Nat) (data buf : List Nat) (reply_length : Nat) (intr : Bool)
    (w : IccWorld) (d : Delivery)
    (hd : data.length ≤ c.maxPayload)
    (hre : w.req_empty = 1) (hrf : w.req_full = 0)
    (hw : w.deliveries = [d])
    (he : d.rep_empty = 0) (hf : d.rep_full = 1)
    (hev : d.msg.minor &&& c.eventFlag = 0)
    (hrep : d.msg.minor &&& c.replyFlag ≠ 0)
    (hmag : d.msg.magic = c.magic)
    (hck : d.msg.cookie = (st.request.cookie + 1) % 65536)
    (hlen1 : c.hdrSize ≤ d.msg.length) (hlen2 : d.msg.length ≤ c.maxSize)
    (hplen : d.payload.length = d.msg.length - c.hdrSize) :
    (0 ≤ (_apcie_icc_cmd c st major minor data buf reply_length intr w).1 →
      d.msg.checksum % 65536 =
        (checksum (hdrBytes ({ d.msg with checksum := 0 })) +
         checksum (d.payload.take (min reply_length (d.msg.length - c.hdrSize))) +
         (d.payload.drop (min reply_length (d.msg.length - c.hdrSize))).sum) % 65536) ∧
    (d.msg.checksum % 65536 ≠
        (checksum (hdrBytes ({ d.msg with checksum := 0 })) +
         checksum (d.payload.take (min reply_length (d.msg.length - c.hdrSize))) +
         (d.payload.drop (min reply_length (d.msg.length - c.hdrSize))).sum) % 65536 →
      (_apcie_icc_cmd c st major minor data buf reply_length intr w).1 = -5) := by
  rw [icc_cmd_delivered_eval c st major minor data buf reply_length intr w d
    hd hre hrf hw he hf hev hrep hmag hck hlen1 hlen2 hplen]
  by_cases hdiff : u16sub (u16sub (u16sub d.msg.checksum
      (checksum (hdrBytes ({ d.msg with checksum := 0 }))))
      (checksum (d.payload.take (min reply_length (d.msg.length - c.hdrSize)))))
      ((d.payload.drop (min reply_length (d.msg.length - c.hdrSize))).sum) = 0
  · have heq := (u16sub_chain_eq_zero _ _ _ _).mp hdiff
    constructor
    · intro _
      rw [heq]
    · intro hne
      exact absurd heq hne
  · rw [if_pos hdiff]
    constructor
    · intro h0
      norm_num at h0
    · intro _
      rfl

/-- C6: when no frame is delivered during the wait, the call clears the
pending flag and the saved reply-buffer pointer and returns -EINTR if the
interruptible wait was interrupted, -ETIMEDOUT otherwise; a subsequent
unrelated `send_request` from the resulting state, answered by a good
reply, then succeeds normally. -/
theorem icc_cmd_timeout (c : IccConsts) (st : IccState) (major minor : Nat)
    (data buf : List Nat) (reply_length : Nat) (intr : Bool) (w : IccWorld)
    (hd : data.length ≤ c.maxPayload)
    (hre : w.req_empty = 1) (hrf : w.req_full = 0)
    (hw : w.deliveries = []) :
    ((_apcie_icc_cmd c st major minor data buf reply_length intr w).1 =
      if intr && w.interrupted then -4 else -110) ∧
    (_apcie_icc_cmd c st major minor data buf reply_length intr w).2.1.reply_pending = false ∧
    (_apcie_icc_cmd c st major minor data buf reply_length intr w).2.1.reply_buffer_set = false ∧
    (_apcie_icc_cmd c st major minor data buf reply_length intr w).2.2 = buf ∧
    (∀ (major2 minor2 : Nat) (data2 buf2 : List Nat) (reply_length2 : Nat)
       (intr2 : Bool) (w2 : IccWorld) (d2 : Delivery),
       data2.length ≤ c.maxPayload → w2.req_empty = 1 → w2.req_full = 0 →
       w2.deliveries = [d2] →
       GoodReply c (_apcie_icc_cmd c st major minor data buf reply_length intr w).2.1
         major2 minor2 d2 →
       (_apcie_icc_cmd c
          (_apcie_icc_cmd c st major minor data buf reply_length intr w).2.1
          major2 minor2 data2 buf2 reply_length2 intr2 w2).1 =
         (d2.msg.length : Int) - (c.hdrSize : Int)) := by
  rw [icc_cmd_no_reply_eval c st major minor data buf reply_length intr w hd hre hrf hw]
  refine ⟨rfl, rfl, rfl, rfl, ?_⟩
  intro major2 minor2 data2 buf2 reply_length2 intr2 w2 d2 hd2 hre2 hrf2 hw2 hg2
  exact (icc_cmd_success c _ major2 minor2 data2 buf2 reply_length2 intr2 w2 d2
    hd2 hre2 hrf2 hw2 hg2).1

/-- A fully valid reply to the first request sent from `iccSt0` (cookie 1):
reply-flagged minor 6, length 16 = header + 4 payload bytes, checksum 255 =
(sum of the zero-checksum header bytes, 155) + (payload sum, 100). -/
def iccGoodRT : Delivery :=
  { rep_empty := 0, rep_full := 1,
    msg := { magic := 66, major := 2, minor := 16390, unknown := 0,
             cookie := 1, length := 16, checksum := 255 },
    payload := [10, 20, 30, 40] }

/-- A world delivering exactly the good reply. -/
def iccWorldGood : IccWorld :=
  { req_empty := 1, req_full := 0, deliveries := [iccGoodRT], interrupted := false }

/-- The same reply with a corrupted checksum field. -/
def iccBadSumReply : Delivery :=
  { rep_empty := 0, rep_full := 1,
    msg := { magic := 66, major := 2, minor := 16390, unknown := 0,
             cookie := 1, length := 16, checksum := 256 },
    payload := [10, 20, 30, 40] }

/-- A world delivering the corrupted reply. -/
def iccWorldBadSum : IccWorld :=
  { req_empty := 1, req_full := 0, deliveries := [iccBadSumReply], interrupted := false }

/-- Witness for C4 at a concrete request/reply pair. -/
theorem icc_cmd_roundtrip_witness :
    (_apcie_icc_cmd iccC iccSt0 2 6 [1] [9, 9] 2 false iccWorldGood).1 =
      (iccGoodRT.msg.length : Int) - (iccC.hdrSize : Int) :=
  (icc_cmd_roundtrip iccC iccSt0 2 6 [1] [9, 9] 2 false iccWorldGood iccGoodRT
    (by decide) (by decide) (by decide) rfl
    ⟨by decide, by decide, by decide, by decide, by decide, by decide, by decide,
     by decide, by decide, by decide, by decide, by decide⟩).1

/-- Witness for C5: the corrupted-checksum reply makes the call fail -EIO. -/
theorem icc_cmd_checksum_verification_witness :
    (_apcie_icc_cmd iccC iccSt0 2 6 [1] [9, 9] 2 false iccWorldBadSum).1 = -5 :=
  (icc_cmd_checksum_verification iccC iccSt0 2 6 [1] [9, 9] 2 false
    iccWorldBadSum iccBadSumReply (by decide) (by decide) (by decide) rfl
    (by decide) (by decide) (by decide) (by decide) (by decide) (by decide)
    (by decide) (by decide) (by decide)).2 (by decide)

/-- Witness for C6: a quiet world times the call out with pending cleared. -/
theorem icc_cmd_timeout_witness :
    (_apcie_icc_cmd iccC iccSt0 2 6 [1] [9, 9] 2 false iccWorld0).2.1.reply_pending = false :=
  (icc_cmd_timeout iccC iccSt0 2 6 [1] [9, 9] 2 false iccWorld0
    (by decide) (by decide) (by decide) rfl).2.1

/-- The scratch buffer size: `ioctl_tmp_buf = kzalloc(1 << 16, GFP_KERNEL)`
in `apcie_icc_init`. -/
def ICC_IOCTL_BUF_SIZE : Nat := 65536

/-- Modelled from the spec: `struct icc_cmd` is declared in
`aeolia-baikal.h`, which is absent from the sources.  Per the spec's
user-facing control surface (`reply_capacity: u16`) and the in-tree
prototype `int apcie_icc_cmd(u8 major, u16 minor, const void *data,
u16 length, void *reply, u16 reply_length)`, the request and reply lengths
are 16-bit struct fields, so `copy_from_user` of the packed struct stores
the user-supplied values truncated modulo 2^16. -/
structure icc_cmd where
  major : Nat
  minor : Nat
  length : Nat
  reply_length : Nat

/-- `static long icc_ioctl(...)`.  Besides the C return value, the result
lists the byte count of every copy performed into or out of the 64 KiB
scratch buffer, in order: `copy_from_user(ioctl_tmp_buf, cmd.data,
cmd.length)` and `copy_to_user(cmd.reply, ioctl_tmp_buf, cmd.reply_length)`.
`cmd_is_icc_cmd` is the `ICC_IOCTL_CMD` case match, the three Bools say
whether each user copy succeeds, and `transportRes` is the `apcie_icc_cmd`
return value. -/
def icc_ioctl (cmd_is_icc_cmd : Bool) (u : icc_cmd)
    (copyHdr copyIn copyOut : Bool) (transportRes : Int) : Int × List Nat :=
  if ¬cmd_is_icc_cmd then (-2, [])
  else if ¬copyHdr then (-14, [])
  else
    let len := u.length % 65536
    let rlen := u.reply_length % 65536
    if ¬copyIn then (-14, [len])
    else if transportRes < 0 then (transportRes, [len])
    else if ¬copyOut then (-14, [len, rlen])
    else (transportRes, [len, rlen])

/-- C9: every byte count the ioctl path uses to copy into or out of the
64 KiB scratch buffer is bounded by the buffer size, for every possible
user-supplied request: the u16 width of the `icc_cmd` length fields keeps
each copy within the `1 << 16`-byte allocation. -/
theorem icc_ioctl_copy_sizes_bounded (cmd_is_icc_cmd : Bool) (u : icc_cmd)
    (copyHdr copyIn copyOut : Bool) (transportRes : Int) (s : Nat)
    (hs : s ∈ (icc_ioctl cmd_is_icc_cmd u copyHdr copyIn copyOut transportRes).2) :
    s ≤ ICC_IOCTL_BUF_SIZE := by
  unfold icc_ioctl at hs
  split_ifs at hs <;> simp [List.mem_cons] at hs <;> unfold ICC_IOCTL_BUF_SIZE <;> omega

/-- Witness for C9 at an out-of-range user length. -/
theorem icc_ioctl_copy_sizes_bounded_witness : 70000 % 65536 ≤ ICC_IOCTL_BUF_SIZE :=
  icc_ioctl_copy_sizes_bounded true ⟨1, 2, 70000, 5⟩ true true true 3
    (70000 % 65536) (by decide)
